import Mathlib

/-!
Verification of the mission execution controller
(`src/gateway/mission.ts` of the moltworker repository).

The TypeScript source is shallowly embedded: pure helpers become Lean
functions; the per-task turn loop becomes a fuel-indexed recursion over an
oracle `Nat → TurnObs` that records what the worker process did on each
turn (stdout, stderr, exit code, duration, and the elapsed wall-clock time
observed at the start of the turn); JavaScript values arriving over HTTP
become a `JsonValue` inductive.  JavaScript string truthiness (`""` and
`undefined` are falsy) is modelled explicitly wherever the source relies
on it.  Strings are treated as sequences of characters.
-/

/-- JavaScript-like prefix test on character lists. -/
def strStartsWithL : List Char → List Char → Bool
  | _, [] => true
  | [], _ :: _ => false
  | a :: as, b :: bs => a = b && strStartsWithL as bs

/-- JavaScript-like substring containment on character lists. -/
def strContainsSubL : List Char → List Char → Bool
  | [], pat => strStartsWithL [] pat
  | a :: t, pat => strStartsWithL (a :: t) pat || strContainsSubL t pat

/-- Models JavaScript `haystack.includes(needle)` on strings. -/
def includesStr (s pat : String) : Bool :=
  strContainsSubL s.data pat.data

/-- Models JavaScript `String.prototype.toLowerCase`. -/
def lowerStr (s : String) : String :=
  ⟨s.data.map Char.toLower⟩

/-- Models JavaScript `s.slice(-n)` for `n ≤ s.length`: the last `n` characters. -/
def sliceLast (s : String) (n : Nat) : String :=
  ⟨s.data.drop (s.data.length - n)⟩

/-- Models JavaScript string truthiness combined with `||`:
`o || d` where `o` is an optional string (`undefined` and `""` are falsy). -/
def jsOrStr (o : Option String) (d : String) : String :=
  match o with
  | some s => if s = "" then d else s
  | none => d

/-- `SINGLE_SHOT_TIMEOUT_MS` — 5 min legacy timeout for single-shot. -/
def SINGLE_SHOT_TIMEOUT_MS : Nat := 300000

/-- `MULTI_TURN_TOTAL_BUDGET_MS` — 4.5 min total budget for multi-turn. -/
def MULTI_TURN_TOTAL_BUDGET_MS : Nat := 270000

/-- `MULTI_TURN_PER_TURN_CAP_MS` — 3 min max per turn. -/
def MULTI_TURN_PER_TURN_CAP_MS : Nat := 180000

/-- `MULTI_TURN_MIN_REMAINING_MS` — 1 min minimum to start a new turn. -/
def MULTI_TURN_MIN_REMAINING_MS : Nat := 60000

/-- `ERROR_INDICATORS` — error indicators for heuristic completion detection. -/
def ERROR_INDICATORS : List String :=
  ["error:", "failed", "todo:", "fixme", "not implemented", "incomplete", "missing", "broken"]

/-- `checkCompletion` — check if a turn's output indicates task completion.
Priority order: 1. `[TASK_COMPLETE]` marker → completed; 2. exit code ≠ 0 →
not completed; 3. `[NEEDS_REFINEMENT]` marker → not completed; 4. no error
indicators and output > 100 chars → completed (heuristic); 5. default →
not completed. -/
def checkCompletion (output : String) (exitCode : Nat) : Bool :=
  if includesStr output "[TASK_COMPLETE]" then true
  else if exitCode ≠ 0 then false
  else if includesStr output "[NEEDS_REFINEMENT]" then false
  else if output.length > 100 && !(ERROR_INDICATORS.any fun ind => includesStr (lowerStr output) ind) then true
  else false

/-- The per-turn timeout computation of `executeMissionTask` (source lines
227–238), factored as a function: single-shot mode always grants the legacy
timeout; multi-turn mode computes `remaining = totalBudget - elapsed` (an
integer, as in JavaScript arithmetic), denies the turn (`none`) when
`remaining < minRemaining`, and otherwise grants `min(remaining, perTurnCap)`. -/
def nextTurnTimeout (isMultiTurn : Bool) (elapsedMs : Nat) : Option Nat :=
  if !isMultiTurn then some SINGLE_SHOT_TIMEOUT_MS
  else
    let remaining : Int := (MULTI_TURN_TOTAL_BUDGET_MS : Int) - (elapsedMs : Int)
    if remaining < (MULTI_TURN_MIN_REMAINING_MS : Int) then none
    else some (min remaining (MULTI_TURN_PER_TURN_CAP_MS : Int)).toNat

/-- Claim C2: for every output and exit code, output containing the literal
`[TASK_COMPLETE]` marker makes `checkCompletion` return `true` regardless of
the exit code (and regardless of any failure-indicator substrings); and when
the marker is absent, a non-zero exit code makes it return `false`. -/
theorem c2_marker_priority :
    (∀ (output : String) (exitCode : Nat),
      includesStr output "[TASK_COMPLETE]" = true →
      checkCompletion output exitCode = true) ∧
    (∀ (output : String) (exitCode : Nat),
      includesStr output "[TASK_COMPLETE]" = false →
      exitCode ≠ 0 →
      checkCompletion output exitCode = false) := by
  constructor
  · intro output exitCode h
    simp [checkCompletion, h]
  · intro output exitCode h hexit
    simp [checkCompletion, h, hexit]

/-- Witness for C2 at concrete inputs: an output containing both the marker
and failure indicators, with non-zero exit code, classifies as completed; a
marker-free output with non-zero exit code does not. -/
theorem c2_marker_priority_witness :
    checkCompletion "error: failed but [TASK_COMPLETE]" 2 = true ∧
    checkCompletion "some ordinary output" 2 = false := by
  refine ⟨c2_marker_priority.1 _ 2 (by decide), c2_marker_priority.2 _ 2 (by decide) (by decide)⟩

/-- Claim C3: the allocator returns the fixed 300000 ms legacy timeout in
single-shot mode regardless of elapsed time; in multi-turn mode it computes
`remaining = 270000 - elapsedMs`, returns `none` exactly when
`remaining < 60000`, and otherwise returns `min(remaining, 180000)`. -/
theorem c3_time_budget_allocator :
    (∀ elapsedMs : Nat, nextTurnTimeout false elapsedMs = some 300000) ∧
    (∀ elapsedMs : Nat,
      (nextTurnTimeout true elapsedMs = none ↔ (270000 : Int) - (elapsedMs : Int) < 60000)) ∧
    (∀ elapsedMs : Nat,
      (60000 : Int) ≤ (270000 : Int) - (elapsedMs : Int) →
      nextTurnTimeout true elapsedMs =
        some ((min ((270000 : Int) - (elapsedMs : Int)) 180000).toNat)) := by
  refine ⟨fun e => rfl, fun e => ?_, fun e h => ?_⟩
  · simp only [nextTurnTimeout, SINGLE_SHOT_TIMEOUT_MS, MULTI_TURN_TOTAL_BUDGET_MS,
      MULTI_TURN_MIN_REMAINING_MS, MULTI_TURN_PER_TURN_CAP_MS, Bool.not_true,
      Bool.false_eq_true, if_false]
    split <;> rename_i hcond
    · simpa using hcond
    · simp only [reduceCtorEq, false_iff, not_lt]
      omega
  · simp only [nextTurnTimeout, SINGLE_SHOT_TIMEOUT_MS, MULTI_TURN_TOTAL_BUDGET_MS,
      MULTI_TURN_MIN_REMAINING_MS, MULTI_TURN_PER_TURN_CAP_MS, Bool.not_true,
      Bool.false_eq_true, if_false]
    rw [if_neg (by omega)]
    norm_num

/-- Witness for C3 at concrete inputs: with 100000 ms elapsed the allocator
grants `min(170000, 180000) = 170000`; the denial boundary holds at 210001 ms. -/
theorem c3_time_budget_allocator_witness :
    nextTurnTimeout false 999999 = some 300000 ∧
    nextTurnTimeout true 100000 = some ((min ((270000 : Int) - (100000 : Int)) 180000).toNat) ∧
    (nextTurnTimeout true 210001 = none ↔ (270000 : Int) - (210001 : Int) < 60000) := by
  exact ⟨c3_time_budget_allocator.1 999999,
    c3_time_budget_allocator.2.2 100000 (by decide),
    c3_time_budget_allocator.2.1 210001⟩

/-- What the worker process did on one turn, as observed by the loop: the
collaborator oracle.  `elapsedAtStart` is `turnStart - startTime` measured at
the top of the loop body; `exitCode` is `proc.exitCode` (`none` models an
unset/null exit code, which the source coalesces to `1` via `?? 1`). -/
structure TurnObs where
  stdout : String
  stderr : String
  exitCode : Option Nat
  durationMs : Nat
  elapsedAtStart : Nat
deriving DecidableEq

/-- `TurnOutput` — output from a single turn in multi-turn execution. -/
structure TurnOutput where
  turn : Nat
  output : String
  duration_ms : Nat
  completed : Bool
deriving DecidableEq

/-- The mutable state of `executeMissionTask`'s loop at exit:
`turnOutputs`, `finalOutput`, `finalSuccess`, `lastStderr`. -/
structure LoopState where
  turnOutputs : List TurnOutput
  finalOutput : String
  finalSuccess : Bool
  lastStderr : String
deriving DecidableEq

/-- The `for (let turn = 1; turn <= maxIterations; turn++)` loop of
`executeMissionTask` (source lines 222–310), as a fuel-indexed recursion.
`fuel` counts the iterations still permitted by the loop guard (initially
`m`, with `turn` starting at 1).  Each iteration: compute the per-turn
timeout and `break` if the budget is denied; read the turn's observation;
coalesce the exit code with `?? 1`; track the last non-empty stderr;
classify completion; append the turn record and update `finalOutput`; then
take the source's three `break` branches (final-turn failure, completion,
exhaustion) or continue to the next turn. -/
def loopAux (m : Nat) (isMT : Bool) (obs : Nat → TurnObs) :
    Nat → Nat → List TurnOutput → String → Bool → String → LoopState
  | 0, _, acc, out, succ, le => ⟨acc, out, succ, le⟩
  | fuel + 1, turn, acc, out, succ, le =>
    match nextTurnTimeout isMT (obs turn).elapsedAtStart with
    | none => ⟨acc, out, succ, le⟩
    | some _ =>
      let o := obs turn
      let exitCode := o.exitCode.getD 1
      let le2 := if o.stderr ≠ "" then o.stderr else le
      let completed := checkCompletion o.stdout exitCode
      let acc2 := acc ++ [⟨turn, o.stdout, o.durationMs, completed⟩]
      if exitCode ≠ 0 ∧ turn = m then ⟨acc2, o.stdout, false, le2⟩
      else if completed then ⟨acc2, o.stdout, true, le2⟩
      else if turn = m then ⟨acc2, o.stdout, decide (exitCode = 0), le2⟩
      else loopAux m isMT obs fuel (turn + 1) acc2 o.stdout succ le2

/-- The `MissionExecuteResponse` fields assembled by the loop (the
`artifact_path` field of the source interface is never set on this path and
is omitted; `duration_ms` is wall-clock time measured by the collaborator
and carries no information in the embedding). -/
structure MissionExecuteResponse where
  success : Bool
  output : String
  error : Option String
  turns_used : Nat
  turn_outputs : Option (List TurnOutput)
deriving DecidableEq

/-- `executeMissionTask`'s normal (non-throwing) path for a given effective
`maxIterations` and oracle: run the loop from turn 1 with fuel
`maxIterations`, then assemble the response exactly as source lines 319–332:
`turn_outputs` only in multi-turn mode, and on failure an `error` that is the
last non-empty stderr truncated to 500 characters, else a fixed message
chosen by whether the last turn record's output is non-empty. -/
def executeMissionLoop (maxIterations : Nat) (obs : Nat → TurnObs) : MissionExecuteResponse :=
  let isMultiTurn : Bool := decide (maxIterations > 1)
  let st := loopAux maxIterations isMultiTurn obs maxIterations 1 [] "" false ""
  let turnsUsed := st.turnOutputs.length
  { success := st.finalSuccess
    output := st.finalOutput
    turns_used := turnsUsed
    turn_outputs := if isMultiTurn then some st.turnOutputs else none
    error :=
      if st.finalSuccess then none
      else some (
        if st.lastStderr ≠ "" then st.lastStderr.take 500
        else if ((st.turnOutputs.getLast?.map TurnOutput.output).getD "") ≠ "" then
          "Task not completed after " ++ toString turnsUsed ++ " turn(s)"
        else "No output produced") }

/-- The running value of the `lastStderr` variable after processing `count`
turns starting at turn `turn`, given its value `le` beforehand. -/
def stderrFold (obs : Nat → TurnObs) (le : String) (turn : Nat) : Nat → String
  | 0 => le
  | count + 1 =>
    stderrFold obs (if (obs turn).stderr ≠ "" then (obs turn).stderr else le) (turn + 1) count

/-- One continuing iteration of the loop: when the budget is granted, the
turn does not classify as completed, and it is not the final turn, the loop
appends the turn record and proceeds to the next turn. -/
lemma loopAux_continue (m : Nat) (isMT : Bool) (obs : Nat → TurnObs)
    (fuel turn : Nat) (acc : List TurnOutput) (out : String) (succ : Bool) (le : String)
    (hb : nextTurnTimeout isMT (obs turn).elapsedAtStart ≠ none)
    (hc : checkCompletion (obs turn).stdout ((obs turn).exitCode.getD 1) = false)
    (hm : turn ≠ m) :
    loopAux m isMT obs (fuel + 1) turn acc out succ le =
      loopAux m isMT obs fuel (turn + 1)
        (acc ++ [⟨turn, (obs turn).stdout, (obs turn).durationMs, false⟩])
        (obs turn).stdout succ
        (if (obs turn).stderr ≠ "" then (obs turn).stderr else le) := by
  obtain ⟨t, ht⟩ := Option.ne_none_iff_exists'.mp hb
  simp only [loopAux, ht, hc]
  rw [if_neg (by simp [hm]), if_neg (by simp), if_neg hm]

/-- If the time budget is denied at turn `n ≤ m` and every earlier turn from
`turn` on continued (budget granted, not completed), then the loop exits with
the `finalSuccess` variable still holding the value `false` it was initialized
with, having recorded `n - turn` further turns. -/
lemma loopAux_budget_denial (m : Nat) (obs : Nat → TurnObs) (n : Nat)
    (hn : n ≤ m)
    (hden : nextTurnTimeout true (obs n).elapsedAtStart = none) :
    ∀ fuel turn acc out le,
      turn + fuel = m + 1 → turn ≤ n →
      (∀ k, turn ≤ k → k < n →
        nextTurnTimeout true (obs k).elapsedAtStart ≠ none ∧
        checkCompletion (obs k).stdout ((obs k).exitCode.getD 1) = false) →
      (loopAux m true obs fuel turn acc out false le).finalSuccess = false ∧
      (loopAux m true obs fuel turn acc out false le).turnOutputs.length = acc.length + (n - turn) := by
  intro fuel
  induction fuel with
  | zero => intro turn acc out le hfuel hturn _; omega
  | succ fuel ih =>
    intro turn acc out le hfuel hturn hprior
    by_cases heq : turn = n
    · subst heq
      refine ⟨?_, ?_⟩ <;> simp [loopAux, hden]
    · have hlt : turn < n := by omega
      have hk := hprior turn le_rfl hlt
      rw [loopAux_continue m true obs fuel turn acc out false le hk.1 hk.2 (by omega)]
      have := ih (turn + 1) (acc ++ [⟨turn, (obs turn).stdout, (obs turn).durationMs, false⟩])
        (obs turn).stdout (if (obs turn).stderr ≠ "" then (obs turn).stderr else le)
        (by omega) (by omega)
        (fun k hk1 hk2 => hprior k (by omega) hk2)
      refine ⟨this.1, ?_⟩
      rw [this.2]
      simp only [List.length_append, List.length_singleton]
      omega

/-- The oracle of the C1 counterexample: turn 1 exits 0 with a short,
marker-free output; by the start of turn 2, 250000 ms have elapsed, so the
budget allocator denies the turn. -/
def obsC1 : Nat → TurnObs := fun k =>
  if k = 1 then ⟨"ok", "", some 0, 10, 0⟩ else ⟨"x", "", some 0, 10, 250000⟩

/-- Counterexample to claim C1 as stated: with `max_iterations = 2`, turn 1
exits with code 0 (not completed), and the allocator denies a timeout before
turn 2; the loop stops with `turns_used = 1` — but `success` is `false`, not
`true` as the claim's "success = true when that turn's exit code was 0"
requires. -/
theorem c1_counterexample :
    (obsC1 1).exitCode = some 0 ∧
    nextTurnTimeout true ((obsC1 2).elapsedAtStart) = none ∧
    (executeMissionLoop 2 obsC1).turns_used = 1 ∧
    (executeMissionLoop 2 obsC1).success = false := by
  refine ⟨rfl, by decide, by decide, by decide⟩

/-- Claim C1 as amended: in multi-turn mode, when the Time-Budget Allocator
denies a timeout before some turn `n > 1` (each earlier turn having been
granted a budget and classified not completed), the Execution Loop stops with
`turns_used = n - 1` and returns an ExecutionResult whose success flag is
`false` regardless of the last executed turn's exit code (the flag keeps its
initial value on the budget-denial path). -/
theorem c1_budget_denial_success_false
    (m n : Nat) (obs : Nat → TurnObs)
    (hm : 1 < m) (hn1 : 1 < n) (hnm : n ≤ m)
    (hprior : ∀ k, 1 ≤ k → k < n →
      nextTurnTimeout true (obs k).elapsedAtStart ≠ none ∧
      checkCompletion (obs k).stdout ((obs k).exitCode.getD 1) = false)
    (hden : nextTurnTimeout true (obs n).elapsedAtStart = none) :
    (executeMissionLoop m obs).success = false ∧
    (executeMissionLoop m obs).turns_used = n - 1 := by
  have hd : (decide (m > 1)) = true := decide_eq_true hm
  have := loopAux_budget_denial m obs n hnm hden m 1 [] "" "" (by omega) (by omega) hprior
  simp only [executeMissionLoop, hd]
  exact ⟨this.1, by rw [this.2]; simp⟩

/-- Witness for the amended C1 at the concrete counterexample oracle. -/
theorem c1_budget_denial_success_false_witness :
    (executeMissionLoop 2 obsC1).success = false ∧
    (executeMissionLoop 2 obsC1).turns_used = 2 - 1 := by
  refine c1_budget_denial_success_false 2 2 obsC1 (by decide) (by decide) (by decide)
    (fun k hk1 hk2 => ?_) (by decide)
  have : k = 1 := by omega
  subst this
  exact ⟨by decide, by decide⟩

/-- If every turn from `turn` up to (but excluding) the final turn `m`
continued, and the final turn is granted a budget but exits non-zero (or with
an unset exit code), the loop exits through the final-turn-failure `break`:
`finalSuccess = false`, `finalOutput` is the final turn's stdout, `lastStderr`
is the fold of non-empty stderrs over the executed turns, and the appended
records end with the final turn's record. -/
lemma loopAux_final_failure (m : Nat) (isMT : Bool) (obs : Nat → TurnObs)
    (hexit : (obs m).exitCode.getD 1 ≠ 0)
    (hbm : nextTurnTimeout isMT (obs m).elapsedAtStart ≠ none) :
    ∀ fuel turn acc out le,
      turn + fuel = m + 1 → turn ≤ m →
      (∀ k, turn ≤ k → k < m →
        nextTurnTimeout isMT (obs k).elapsedAtStart ≠ none ∧
        checkCompletion (obs k).stdout ((obs k).exitCode.getD 1) = false) →
      (loopAux m isMT obs fuel turn acc out false le).finalSuccess = false ∧
      (loopAux m isMT obs fuel turn acc out false le).finalOutput = (obs m).stdout ∧
      (loopAux m isMT obs fuel turn acc out false le).lastStderr =
        stderrFold obs le turn (m + 1 - turn) ∧
      (loopAux m isMT obs fuel turn acc out false le).turnOutputs.length =
        acc.length + (m + 1 - turn) ∧
      (loopAux m isMT obs fuel turn acc out false le).turnOutputs.getLast? =
        some ⟨m, (obs m).stdout, (obs m).durationMs,
          checkCompletion (obs m).stdout ((obs m).exitCode.getD 1)⟩ := by
  intro fuel
  induction fuel with
  | zero => intro turn acc out le hfuel hturn _; omega
  | succ fuel ih =>
    intro turn acc out le hfuel hturn hprior
    by_cases heq : turn = m
    · subst heq
      obtain ⟨t, ht⟩ := Option.ne_none_iff_exists'.mp hbm
      simp only [loopAux, ht]
      rw [if_pos ⟨hexit, trivial⟩]
      have hc : turn + 1 - turn = 1 := by omega
      refine ⟨rfl, rfl, ?_, ?_, ?_⟩
      · rw [hc]
        simp [stderrFold]
      · rw [hc]
        simp
      · simp [List.getLast?_concat]
    · have hlt : turn < m := by omega
      have hk := hprior turn le_rfl hlt
      rw [loopAux_continue m isMT obs fuel turn acc out false le hk.1 hk.2 heq]
      have := ih (turn + 1) (acc ++ [⟨turn, (obs turn).stdout, (obs turn).durationMs, false⟩])
        (obs turn).stdout (if (obs turn).stderr ≠ "" then (obs turn).stderr else le)
        (by omega) (by omega)
        (fun k hk1 hk2 => hprior k (by omega) hk2)
      refine ⟨this.1, this.2.1, ?_, ?_, this.2.2.2.2⟩
      · rw [this.2.2.1]
        have h1 : m + 1 - turn = (m - turn) + 1 := by omega
        have h2 : m + 1 - (turn + 1) = m - turn := by omega
        rw [h1, h2]
        rfl
      · rw [this.2.2.2.1]
        simp only [List.length_append, List.length_singleton]
        omega

/-- Claim C4: if the final turn (turn `m = max_iterations`, reached because
every earlier turn continued) ends with a non-zero or unset exit code, the
result has `success = false`, `turns_used = m`, and an error string equal to
the last non-empty stderr of the run truncated to 500 characters when one
exists, else "Task not completed after N turn(s)" when the final turn
produced output, else "No output produced" — with no condition on the final
turn's stdout, so this holds even when it contains `[TASK_COMPLETE]`. -/
theorem c4_final_turn_failure_error (m : Nat) (obs : Nat → TurnObs)
    (hm : 1 ≤ m)
    (hprior : ∀ k, 1 ≤ k → k < m →
      nextTurnTimeout (decide (m > 1)) (obs k).elapsedAtStart ≠ none ∧
      checkCompletion (obs k).stdout ((obs k).exitCode.getD 1) = false)
    (hbm : nextTurnTimeout (decide (m > 1)) (obs m).elapsedAtStart ≠ none)
    (hexit : (obs m).exitCode.getD 1 ≠ 0) :
    (executeMissionLoop m obs).success = false ∧
    (executeMissionLoop m obs).turns_used = m ∧
    (executeMissionLoop m obs).output = (obs m).stdout ∧
    (executeMissionLoop m obs).error = some (
      if stderrFold obs "" 1 m ≠ "" then (stderrFold obs "" 1 m).take 500
      else if (obs m).stdout ≠ "" then
        "Task not completed after " ++ toString m ++ " turn(s)"
      else "No output produced") := by
  have h := loopAux_final_failure m (decide (m > 1)) obs hexit hbm m 1 [] "" ""
    (by omega) (by omega) hprior
  have hm1 : m + 1 - 1 = m := by omega
  rw [hm1] at h
  simp only [executeMissionLoop, h.1, h.2.1, h.2.2.1, h.2.2.2.1, h.2.2.2.2,
    List.length_nil, Nat.zero_add, Option.map_some', Option.getD_some,
    Bool.false_eq_true, if_false]
  exact ⟨trivial, trivial, trivial, trivial⟩

/-- The oracle of the C4 witness: turn 1 exits 0 with a short marker-free
output and stderr "boom"; turn 2 (the final turn) exits 1 while printing the
completion marker. -/
def obsC4 : Nat → TurnObs := fun k =>
  if k = 1 then ⟨"short", "boom", some 0, 10, 0⟩
  else ⟨"final [TASK_COMPLETE]", "", some 1, 10, 50000⟩

/-- Witness for C4: a two-turn run whose final turn exits 1 while printing
the completion marker; turn 1 printed "boom" on stderr, so the error is that
stderr (the last non-empty one), and success is false despite the marker. -/
theorem c4_final_turn_failure_error_witness :
    (executeMissionLoop 2 obsC4).success = false ∧
    (executeMissionLoop 2 obsC4).turns_used = 2 ∧
    (executeMissionLoop 2 obsC4).output = (obsC4 2).stdout ∧
    (executeMissionLoop 2 obsC4).error = some (
      if stderrFold obsC4 "" 1 2 ≠ "" then (stderrFold obsC4 "" 1 2).take 500
      else if (obsC4 2).stdout ≠ "" then
        "Task not completed after " ++ toString 2 ++ " turn(s)"
      else "No output produced") := by
  refine c4_final_turn_failure_error 2 obsC4 (by decide) (fun k hk1 hk2 => ?_)
    (by decide) (by decide)
  have : k = 1 := by omega
  subst this
  exact ⟨by decide, by decide⟩

/-- If every turn from `turn` up to (but excluding) turn `n` continued, and
turn `n < m` is granted a budget and classifies as completed, the loop exits
through the completion `break` with `finalSuccess = true` — the final-turn
failure branch is not consulted because `n ≠ m`. -/
lemma loopAux_completed_break (m : Nat) (isMT : Bool) (obs : Nat → TurnObs) (n : Nat)
    (hcomp : checkCompletion (obs n).stdout ((obs n).exitCode.getD 1) = true)
    (hb : nextTurnTimeout isMT (obs n).elapsedAtStart ≠ none)
    (hnm : n < m) :
    ∀ fuel turn acc out succ le,
      turn + fuel = m + 1 → turn ≤ n →
      (∀ k, turn ≤ k → k < n →
        nextTurnTimeout isMT (obs k).elapsedAtStart ≠ none ∧
        checkCompletion (obs k).stdout ((obs k).exitCode.getD 1) = false) →
      (loopAux m isMT obs fuel turn acc out succ le).finalSuccess = true ∧
      (loopAux m isMT obs fuel turn acc out succ le).turnOutputs.length =
        acc.length + (n + 1 - turn) ∧
      (loopAux m isMT obs fuel turn acc out succ le).finalOutput = (obs n).stdout := by
  intro fuel
  induction fuel with
  | zero => intro turn acc out succ le hfuel hturn _; omega
  | succ fuel ih =>
    intro turn acc out succ le hfuel hturn hprior
    by_cases heq : turn = n
    · subst heq
      obtain ⟨t, ht⟩ := Option.ne_none_iff_exists'.mp hb
      simp only [loopAux, ht, hcomp]
      rw [if_neg (fun hand => absurd hand.2 (by omega)), if_pos trivial]
      refine ⟨rfl, ?_, rfl⟩
      simp only [List.length_append, List.length_singleton]
      omega
    · have hlt : turn < n := by omega
      have hk := hprior turn le_rfl hlt
      rw [loopAux_continue m isMT obs fuel turn acc out succ le hk.1 hk.2 (by omega)]
      have := ih (turn + 1) (acc ++ [⟨turn, (obs turn).stdout, (obs turn).durationMs, false⟩])
        (obs turn).stdout succ (if (obs turn).stderr ≠ "" then (obs turn).stderr else le)
        (by omega) (by omega)
        (fun k hk1 hk2 => hprior k (by omega) hk2)
      refine ⟨this.1, ?_, this.2.2⟩
      rw [this.2.1]
      simp only [List.length_append, List.length_singleton]
      omega

/-- Claim C5: for a turn `n < max_iterations` whose process exits non-zero
but whose output contains the literal `[TASK_COMPLETE]` marker (earlier turns
having continued), the loop stops at turn `n` with `success = true` — the
exit-code failure transition applies only on the final turn, and the
completion transition is checked next. -/
theorem c5_nonfinal_marker_success (m n : Nat) (obs : Nat → TurnObs)
    (hn : 1 ≤ n) (hnm : n < m)
    (_hexit : (obs n).exitCode.getD 1 ≠ 0)
    (hmarker : includesStr (obs n).stdout "[TASK_COMPLETE]" = true)
    (hprior : ∀ k, 1 ≤ k → k < n →
      nextTurnTimeout (decide (m > 1)) (obs k).elapsedAtStart ≠ none ∧
      checkCompletion (obs k).stdout ((obs k).exitCode.getD 1) = false)
    (hb : nextTurnTimeout (decide (m > 1)) (obs n).elapsedAtStart ≠ none) :
    (executeMissionLoop m obs).success = true ∧
    (executeMissionLoop m obs).turns_used = n ∧
    (executeMissionLoop m obs).output = (obs n).stdout := by
  have hcomp : checkCompletion (obs n).stdout ((obs n).exitCode.getD 1) = true := by
    simp [checkCompletion, hmarker]
  have h := loopAux_completed_break m (decide (m > 1)) obs n hcomp hb hnm
    m 1 [] "" false "" (by omega) (by omega) hprior
  simp only [executeMissionLoop, h.1, h.2.1, h.2.2, List.length_nil, Nat.zero_add]
  refine ⟨trivial, ?_, trivial⟩
  omega

/-- The oracle of the C5 witness: turn 1 exits 0 with a short marker-free
output; turn 2 exits 3 but prints the completion marker. -/
def obsC5 : Nat → TurnObs := fun k =>
  if k = 1 then ⟨"short", "", some 0, 10, 0⟩
  else ⟨"done [TASK_COMPLETE]", "", some 3, 10, 50000⟩

/-- Witness for C5: with `max_iterations = 3`, turn 2 exits 3 with the
marker; the run reports success after 2 turns. -/
theorem c5_nonfinal_marker_success_witness :
    (executeMissionLoop 3 obsC5).success = true ∧
    (executeMissionLoop 3 obsC5).turns_used = 2 ∧
    (executeMissionLoop 3 obsC5).output = (obsC5 2).stdout := by
  refine c5_nonfinal_marker_success 3 2 obsC5 (by decide) (by decide) (by decide)
    (by decide) (fun k hk1 hk2 => ?_) (by decide)
  have : k = 1 := by omega
  subst this
  exact ⟨by decide, by decide⟩


/-- The record-sequence invariant of the loop state: records carry indices
`1..len` in order, each record's output is that turn's stdout, and
`finalOutput` equals the last record's output. -/
def RecordsInv (obs : Nat → TurnObs) (st : LoopState) : Prop :=
  (∀ i (h : i < st.turnOutputs.length),
    (st.turnOutputs.get ⟨i, h⟩).turn = i + 1 ∧
    (st.turnOutputs.get ⟨i, h⟩).output = (obs (i + 1)).stdout) ∧
  (∀ rec, st.turnOutputs.getLast? = some rec → st.finalOutput = rec.output)

/-- Appending the record of turn `acc.length + 1` preserves `RecordsInv`,
for any duration, completion flag, and bookkeeping fields. -/
lemma RecordsInv_append (obs : Nat → TurnObs) (acc : List TurnOutput)
    (out : String) (b0 b1 b2 : Bool) (le0 le2 : String) (d turn : Nat)
    (hturn : turn = acc.length + 1)
    (hinv : RecordsInv obs ⟨acc, out, b0, le0⟩) :
    RecordsInv obs ⟨acc ++ [⟨turn, (obs turn).stdout, d, b1⟩], (obs turn).stdout, b2, le2⟩ := by
  obtain ⟨hidx, _⟩ := hinv
  constructor
  · intro i h
    simp only [List.length_append, List.length_singleton] at h
    rcases Nat.lt_or_ge i acc.length with hi | hi
    · have hg : ((acc ++ [(⟨turn, (obs turn).stdout, d, b1⟩ : TurnOutput)]).get
          ⟨i, by simp; omega⟩) = acc.get ⟨i, hi⟩ := by
        simp [List.get_eq_getElem, List.getElem_append_left hi]
      exact hg ▸ hidx i hi
    · have hie : i = acc.length := by omega
      subst hie
      have hg : ((acc ++ [(⟨turn, (obs turn).stdout, d, b1⟩ : TurnOutput)]).get
          ⟨acc.length, by simp⟩) = ⟨turn, (obs turn).stdout, d, b1⟩ := by
        simp [List.get_eq_getElem]
      rw [hg, hturn]
      exact ⟨rfl, rfl⟩
  · intro rec hr
    rw [List.getLast?_concat] at hr
    cases hr
    rfl

/-- Loop invariant: from a state whose records satisfy `RecordsInv` with the
turn counter at `acc.length + 1`, the loop exits in a state satisfying
`RecordsInv`, appending at most `fuel` further records. -/
lemma loopAux_records_invariant (m : Nat) (isMT : Bool) (obs : Nat → TurnObs) :
    ∀ fuel turn acc out succ le,
      turn = acc.length + 1 →
      RecordsInv obs ⟨acc, out, succ, le⟩ →
      (loopAux m isMT obs fuel turn acc out succ le).turnOutputs.length ≤ acc.length + fuel ∧
      RecordsInv obs (loopAux m isMT obs fuel turn acc out succ le) := by
  intro fuel
  induction fuel with
  | zero =>
    intro turn acc out succ le _ hinv
    exact ⟨Nat.le_add_right _ 0, hinv⟩
  | succ fuel ih =>
    intro turn acc out succ le hturn hinv
    cases hnb : nextTurnTimeout isMT (obs turn).elapsedAtStart with
    | none =>
      have heq : loopAux m isMT obs (fuel + 1) turn acc out succ le = ⟨acc, out, succ, le⟩ := by
        simp [loopAux, hnb]
      rw [heq]
      refine ⟨?_, hinv⟩
      show acc.length ≤ acc.length + (fuel + 1)
      omega
    | some t =>
      by_cases h1 : ((obs turn).exitCode.getD 1 ≠ 0 ∧ turn = m)
      · have heq : loopAux m isMT obs (fuel + 1) turn acc out succ le =
            ⟨acc ++ [⟨turn, (obs turn).stdout, (obs turn).durationMs,
              checkCompletion (obs turn).stdout ((obs turn).exitCode.getD 1)⟩],
              (obs turn).stdout, false,
              if (obs turn).stderr ≠ "" then (obs turn).stderr else le⟩ := by
          simp only [loopAux, hnb]
          rw [if_pos h1]
        rw [heq]
        refine ⟨by simp only [List.length_append, List.length_singleton]; omega,
          RecordsInv_append obs acc out succ _ _ le _ _ turn hturn hinv⟩
      · by_cases h2 : checkCompletion (obs turn).stdout ((obs turn).exitCode.getD 1) = true
        · have heq : loopAux m isMT obs (fuel + 1) turn acc out succ le =
              ⟨acc ++ [⟨turn, (obs turn).stdout, (obs turn).durationMs,
                checkCompletion (obs turn).stdout ((obs turn).exitCode.getD 1)⟩],
                (obs turn).stdout, true,
                if (obs turn).stderr ≠ "" then (obs turn).stderr else le⟩ := by
            simp only [loopAux, hnb]
            rw [if_neg h1, if_pos h2]
          rw [heq]
          refine ⟨by simp only [List.length_append, List.length_singleton]; omega,
          RecordsInv_append obs acc out succ _ _ le _ _ turn hturn hinv⟩
        · by_cases h3 : turn = m
          · have heq : loopAux m isMT obs (fuel + 1) turn acc out succ le =
                ⟨acc ++ [⟨turn, (obs turn).stdout, (obs turn).durationMs,
                  checkCompletion (obs turn).stdout ((obs turn).exitCode.getD 1)⟩],
                  (obs turn).stdout, decide ((obs turn).exitCode.getD 1 = 0),
                  if (obs turn).stderr ≠ "" then (obs turn).stderr else le⟩ := by
              simp only [loopAux, hnb]
              rw [if_neg h1, if_neg h2, if_pos h3]
            rw [heq]
            refine ⟨by simp only [List.length_append, List.length_singleton]; omega,
          RecordsInv_append obs acc out succ _ _ le _ _ turn hturn hinv⟩
          · have hc : checkCompletion (obs turn).stdout ((obs turn).exitCode.getD 1) = false := by
              revert h2
              cases checkCompletion (obs turn).stdout ((obs turn).exitCode.getD 1) <;> simp
            rw [loopAux_continue m isMT obs fuel turn acc out succ le
              (by rw [hnb]; exact fun hx => Option.noConfusion hx) hc h3]
            have hinv2 : RecordsInv obs
                ⟨acc ++ [⟨turn, (obs turn).stdout, (obs turn).durationMs, false⟩],
                  (obs turn).stdout, succ,
                  if (obs turn).stderr ≠ "" then (obs turn).stderr else le⟩ :=
              RecordsInv_append obs acc out succ _ _ le _ _ turn hturn hinv
            have := ih (turn + 1)
              (acc ++ [⟨turn, (obs turn).stdout, (obs turn).durationMs, false⟩])
              (obs turn).stdout succ
              (if (obs turn).stderr ≠ "" then (obs turn).stderr else le)
              (by simp [hturn]) hinv2
            refine ⟨?_, this.2⟩
            have hlen := this.1
            simp only [List.length_append, List.length_singleton] at hlen
            omega

/-- A JSON value as delivered by the HTTP layer (`body: unknown` in the
source is the parsed JSON body; `undefined` is modelled as `Option.none` at
use sites such as absent object fields). -/
inductive JsonValue where
  | null
  | bool (b : Bool)
  | num (q : Rat)
  | str (s : String)
  | arr (elems : List JsonValue)
  | obj (fields : List (String × JsonValue))

/-- JavaScript truthiness of a JSON value. -/
def jsTruthy : JsonValue → Bool
  | .null => false
  | .bool b => b
  | .num q => q ≠ 0
  | .str s => s ≠ ""
  | .arr _ => true
  | .obj _ => true

/-- Whether `typeof v === 'object'` holds for a JSON value
(`null`, arrays and objects). -/
def typeofObject : JsonValue → Bool
  | .null => true
  | .arr _ => true
  | .obj _ => true
  | _ => false

/-- First-match field lookup in an object's field list. -/
def lookupField : List (String × JsonValue) → String → Option JsonValue
  | [], _ => none
  | (k, v) :: rest, key => if k = key then some v else lookupField rest key

/-- JavaScript property access `v[key]` on a JSON value: `none` models
`undefined` (non-objects and missing fields). -/
def getField : JsonValue → String → Option JsonValue
  | .obj fields, key => lookupField fields key
  | _, _ => none

/-- Models `typeof v[key] === 'string' ? v[key] : undefined`. -/
def strFieldOpt (v : JsonValue) (key : String) : Option String :=
  match getField v key with
  | some (.str s) => some s
  | _ => none

/-- `ApiCredentials` — per-request credentials; the provider is one of the
seven recognized literals (validation enforces this before construction). -/
structure ApiCredentials where
  provider : String
  api_key : String
  base_url : Option String
deriving DecidableEq

/-- `MissionExecuteRequest` — the validated request, as constructed by
`validateMissionRequest`: `max_iterations`, when present, already carries the
clamped value. -/
structure MissionExecuteRequest where
  agent_id : String
  task_id : String
  task_subject : String
  task_description : String
  soul_content : String
  model_override : Option String
  team_context : Option String
  methodology_context : Option String
  agent_memory : Option String
  project_memory : Option String
  project_communications : Option String
  project_document_index : Option String
  api_credentials : Option ApiCredentials
  max_iterations : Option Nat
deriving DecidableEq

/-- The valid provider list of `validateApiCredentials`. -/
def validProviders : List String :=
  ["anthropic", "openai", "xai", "moonshot", "cloudflare-ai-gateway", "openrouter", "minimax"]

/-- `validateApiCredentials` — validate an API credentials object: discarded
(`none`) unless it is a truthy `object`, with `provider` a string among the
recognized kinds and `api_key` a non-empty string; `base_url` is kept only
when it is a string. -/
def validateApiCredentials (creds : Option JsonValue) : Option ApiCredentials :=
  match creds with
  | none => none
  | some c =>
    if !(jsTruthy c) || !(typeofObject c) then none
    else
      match getField c "provider" with
      | some (.str p) =>
        if validProviders.contains p then
          match getField c "api_key" with
          | some (.str k) =>
            if k = "" then none
            else some { provider := p, api_key := k, base_url := strFieldOpt c "base_url" }
          | _ => none
        else none
      | _ => none

/-- `Math.max(1, Math.min(Math.floor(q), 5))` for a JSON number. -/
def clampIterations (q : Rat) : Nat :=
  (max 1 (min (Rat.floor q) 5)).toNat

/-- `validateMissionRequest` — validate a mission execution request body:
required non-empty strings `agent_id`, `task_id`, `task_subject` and
`soul_content`, required string `task_description` (may be empty); optional
fields are kept only when strings; `api_credentials` is validated separately
(invalid shapes dropped to `none`); a numeric `max_iterations` is floored
and clamped into `[1, 5]`, a non-numeric one dropped. -/
def validateMissionRequest (body : Option JsonValue) :
    Except String MissionExecuteRequest :=
  match body with
  | none => .error "Request body must be a JSON object"
  | some v =>
    if jsTruthy v && typeofObject v then
      match getField v "agent_id" with
      | some (.str agentId) =>
        if agentId = "" then .error "agent_id is required and must be a string"
        else
          match getField v "task_id" with
          | some (.str taskId) =>
            if taskId = "" then .error "task_id is required and must be a string"
            else
              match getField v "task_subject" with
              | some (.str taskSubject) =>
                if taskSubject = "" then .error "task_subject is required and must be a string"
                else
                  match getField v "task_description" with
                  | some (.str taskDescription) =>
                    match getField v "soul_content" with
                    | some (.str soulContent) =>
                      if soulContent = "" then .error "soul_content is required and must be a string"
                      else
                        .ok {
                          agent_id := agentId
                          task_id := taskId
                          task_subject := taskSubject
                          task_description := taskDescription
                          soul_content := soulContent
                          model_override := strFieldOpt v "model_override"
                          team_context := strFieldOpt v "team_context"
                          methodology_context := strFieldOpt v "methodology_context"
                          agent_memory := strFieldOpt v "agent_memory"
                          project_memory := strFieldOpt v "project_memory"
                          project_communications := strFieldOpt v "project_communications"
                          project_document_index := strFieldOpt v "project_document_index"
                          api_credentials := validateApiCredentials (getField v "api_credentials")
                          max_iterations :=
                            match getField v "max_iterations" with
                            | some (.num q) => some (clampIterations q)
                            | _ => none }
                    | _ => .error "soul_content is required and must be a string"
                  | _ => .error "task_description must be a string"
              | _ => .error "task_subject is required and must be a string"
          | _ => .error "task_id is required and must be a string"
      | _ => .error "agent_id is required and must be a string"
    else .error "Request body must be a JSON object"

/-- `request.max_iterations || 1` as computed by `executeMissionTask`
(source line 201): an absent — or zero, were it possible — value defaults
to 1. -/
def effectiveMaxIterations (request : MissionExecuteRequest) : Nat :=
  match request.max_iterations with
  | some n => if n = 0 then 1 else n
  | none => 1

/-- Inversion for a successful validation: the constructed request's
`api_credentials` and `max_iterations` fields are exactly the values
computed from the body. -/
lemma validateMissionRequest_ok_inv (v : JsonValue) (r : MissionExecuteRequest)
    (h : validateMissionRequest (some v) = Except.ok r) :
    r.api_credentials = validateApiCredentials (getField v "api_credentials") ∧
    r.max_iterations = (match getField v "max_iterations" with
      | some (.num q) => some (clampIterations q)
      | _ => none) := by
  simp only [validateMissionRequest] at h
  split at h <;> try exact Except.noConfusion h
  split at h <;> try exact Except.noConfusion h
  split at h <;> try exact Except.noConfusion h
  split at h <;> try exact Except.noConfusion h
  split at h <;> try exact Except.noConfusion h
  split at h <;> try exact Except.noConfusion h
  split at h <;> try exact Except.noConfusion h
  split at h <;> try exact Except.noConfusion h
  split at h <;> try exact Except.noConfusion h
  split at h <;> try exact Except.noConfusion h
  injection h with h
  subst h
  exact ⟨rfl, rfl⟩

/-- The empty record list satisfies the record invariant for any
bookkeeping fields. -/
lemma RecordsInv_nil (obs : Nat → TurnObs) (out : String) (b : Bool) (le : String) :
    RecordsInv obs ⟨[], out, b, le⟩ := by
  constructor
  · intro i h
    exact absurd h (by simp)
  · intro rec hr
    simp at hr

/-- Bounds of the clamp: `Math.max(1, Math.min(Math.floor(q), 5))` always
lands in `[1, 5]`. -/
lemma clampIterations_bounds (q : Rat) :
    1 ≤ clampIterations q ∧ clampIterations q ≤ 5 := by
  unfold clampIterations
  constructor <;> omega

/-- Claim C6: the effective `max_iterations` of a validated request is in
`[1, 5]` (defaulting to 1 when the field is absent); the loop's `turns_used`
never exceeds it; `turn_outputs` is present in the response iff
`max_iterations > 1`; the records carry strictly increasing 1-based indices
`1..turns_used`, each with that turn's stdout as its output; and the
response's `output` is the last executed turn's stdout. -/
theorem c6_result_invariants :
    (∀ (v : JsonValue) (r : MissionExecuteRequest),
      validateMissionRequest (some v) = Except.ok r →
      1 ≤ effectiveMaxIterations r ∧ effectiveMaxIterations r ≤ 5) ∧
    (∀ (v : JsonValue) (r : MissionExecuteRequest),
      validateMissionRequest (some v) = Except.ok r →
      getField v "max_iterations" = none →
      effectiveMaxIterations r = 1) ∧
    (∀ (m : Nat) (obs : Nat → TurnObs),
      (executeMissionLoop m obs).turns_used ≤ m) ∧
    (∀ (m : Nat) (obs : Nat → TurnObs),
      ((executeMissionLoop m obs).turn_outputs).isSome = decide (1 < m)) ∧
    (∀ (m : Nat) (obs : Nat → TurnObs) (recs : List TurnOutput),
      (executeMissionLoop m obs).turn_outputs = some recs →
      recs.length = (executeMissionLoop m obs).turns_used ∧
      (∀ i (h : i < recs.length),
        (recs.get ⟨i, h⟩).turn = i + 1 ∧ (recs.get ⟨i, h⟩).output = (obs (i + 1)).stdout) ∧
      (∀ rec, recs.getLast? = some rec → (executeMissionLoop m obs).output = rec.output)) ∧
    (∀ (m : Nat) (obs : Nat → TurnObs),
      0 < (executeMissionLoop m obs).turns_used →
      (executeMissionLoop m obs).output =
        (obs ((executeMissionLoop m obs).turns_used)).stdout) := by
  refine ⟨?_, ?_, ?_, ?_, ?_, ?_⟩
  · intro v r h
    obtain ⟨-, hmi⟩ := validateMissionRequest_ok_inv v r h
    unfold effectiveMaxIterations
    rw [hmi]
    cases hgf : getField v "max_iterations" with
    | none => simp
    | some jv =>
      cases jv <;> simp only []
      case num q =>
        have hb := clampIterations_bounds q
        rw [if_neg (by omega)]
        exact hb
      all_goals simp
  · intro v r h hnone
    obtain ⟨-, hmi⟩ := validateMissionRequest_ok_inv v r h
    unfold effectiveMaxIterations
    rw [hmi, hnone]
  · intro m obs
    obtain ⟨hlen, -⟩ := loopAux_records_invariant m (decide (m > 1)) obs m 1 [] "" false ""
      rfl (RecordsInv_nil obs "" false "")
    simpa using hlen
  · intro m obs
    simp only [executeMissionLoop]
    by_cases hm : 1 < m
    · simp [hm]
    · simp [hm]
  · intro m obs recs hro
    obtain ⟨hlen, hinv⟩ := loopAux_records_invariant m (decide (m > 1)) obs m 1 [] "" false ""
      rfl (RecordsInv_nil obs "" false "")
    simp only [executeMissionLoop] at hro ⊢
    by_cases hm : 1 < m
    · rw [if_pos (by simp [hm])] at hro
      injection hro with hro
      subst hro
      exact ⟨rfl, hinv.1, hinv.2⟩
    · rw [if_neg (by simp [hm])] at hro
      exact Option.noConfusion hro
  · intro m obs hpos
    obtain ⟨hlen, hinv⟩ := loopAux_records_invariant m (decide (m > 1)) obs m 1 [] "" false ""
      rfl (RecordsInv_nil obs "" false "")
    simp only [executeMissionLoop] at hpos ⊢
    have hlt : (loopAux m (decide (m > 1)) obs m 1 [] "" false "").turnOutputs.length - 1 <
        (loopAux m (decide (m > 1)) obs m 1 [] "" false "").turnOutputs.length := by omega
    have hlast : (loopAux m (decide (m > 1)) obs m 1 [] "" false "").turnOutputs.getLast? =
        some ((loopAux m (decide (m > 1)) obs m 1 [] "" false "").turnOutputs.get
          ⟨(loopAux m (decide (m > 1)) obs m 1 [] "" false "").turnOutputs.length - 1, hlt⟩) := by
      rw [List.getLast?_eq_getElem?, List.getElem?_eq_getElem hlt]
      simp [List.get_eq_getElem]
    have h1 := hinv.2 _ hlast
    have h2 := (hinv.1 _ hlt).2
    rw [h1, h2, Nat.sub_add_cancel hpos]

/-- A concrete valid request body with no `max_iterations` field. -/
def jsonReqC6 : JsonValue := .obj [
  ("agent_id", .str "jarvis"), ("task_id", .str "t1"), ("task_subject", .str "plan"),
  ("task_description", .str ""), ("soul_content", .str "soul")]

/-- The validated request built from `jsonReqC6`. -/
def reqC6 : MissionExecuteRequest := {
  agent_id := "jarvis", task_id := "t1", task_subject := "plan",
  task_description := "", soul_content := "soul",
  model_override := none, team_context := none, methodology_context := none,
  agent_memory := none, project_memory := none, project_communications := none,
  project_document_index := none, api_credentials := none, max_iterations := none }

/-- The records produced by the two executed turns of `obsC5` under
`max_iterations = 3`. -/
def recsC6w : List TurnOutput :=
  [⟨1, "short", 10, false⟩, ⟨2, "done [TASK_COMPLETE]", 10, true⟩]

/-- Witness for C6 at concrete inputs: the validated request `reqC6` and the
three-iteration run over `obsC5`, which stops after two turns. -/
theorem c6_result_invariants_witness :
    (1 ≤ effectiveMaxIterations reqC6 ∧ effectiveMaxIterations reqC6 ≤ 5) ∧
    effectiveMaxIterations reqC6 = 1 ∧
    (executeMissionLoop 3 obsC5).turns_used ≤ 3 ∧
    ((executeMissionLoop 3 obsC5).turn_outputs).isSome = decide (1 < 3) ∧
    (recsC6w.length = (executeMissionLoop 3 obsC5).turns_used ∧
      (∀ i (h : i < recsC6w.length),
        (recsC6w.get ⟨i, h⟩).turn = i + 1 ∧
        (recsC6w.get ⟨i, h⟩).output = (obsC5 (i + 1)).stdout) ∧
      (∀ rec, recsC6w.getLast? = some rec →
        (executeMissionLoop 3 obsC5).output = rec.output)) ∧
    (executeMissionLoop 3 obsC5).output =
      (obsC5 ((executeMissionLoop 3 obsC5).turns_used)).stdout := by
  refine ⟨c6_result_invariants.1 jsonReqC6 reqC6 rfl,
    c6_result_invariants.2.1 jsonReqC6 reqC6 rfl rfl,
    c6_result_invariants.2.2.1 3 obsC5,
    c6_result_invariants.2.2.2.1 3 obsC5,
    c6_result_invariants.2.2.2.2.1 3 obsC5 recsC6w (by decide),
    c6_result_invariants.2.2.2.2.2 3 obsC5 (by decide)⟩

/-- One attempt of the gateway-URL regex `\/v1\/([^\/]+)\/([^\/]+)` at the
head of the character list: a literal `/v1/`, then one-or-more non-slash
characters, a slash, and one-or-more non-slash characters. -/
def tryGatewayMatchAt (l : List Char) : Option (String × String) :=
  if strStartsWithL l "/v1/".data then
    let after := l.drop 4
    let a := after.takeWhile (fun c => c ≠ '/')
    let r := after.dropWhile (fun c => c ≠ '/')
    if a.isEmpty then none
    else
      match r with
      | '/' :: r2 =>
        let b := r2.takeWhile (fun c => c ≠ '/')
        if b.isEmpty then none else some (⟨a⟩, ⟨b⟩)
      | _ => none
  else none

/-- Leftmost match of the gateway-URL regex over the whole string. -/
def scanGatewayIds : List Char → Option (String × String)
  | [] => none
  | c :: rest =>
    match tryGatewayMatchAt (c :: rest) with
    | some r => some r
    | none => scanGatewayIds rest

/-- `buildCredentialEnvVars` — build environment variables for per-request
API credentials, in insertion order.  `xai`, `openrouter` and `minimax`
reuse the OpenAI-compatible variable pair with provider-specific default
base URLs (`base_url || default`, so an empty override also falls back);
`anthropic`, `openai` and `moonshot` set their base-URL variable only for a
truthy (non-empty) `base_url`; `cloudflare-ai-gateway` additionally parses
account/gateway IDs out of a truthy `base_url`. -/
def buildCredentialEnvVars (credentials : ApiCredentials) : List (String × String) :=
  match credentials.provider with
  | "anthropic" =>
    [("ANTHROPIC_API_KEY", credentials.api_key)] ++
      (match credentials.base_url with
       | some b => if b ≠ "" then [("ANTHROPIC_BASE_URL", b)] else []
       | none => [])
  | "openai" =>
    [("OPENAI_API_KEY", credentials.api_key)] ++
      (match credentials.base_url with
       | some b => if b ≠ "" then [("OPENAI_BASE_URL", b)] else []
       | none => [])
  | "xai" =>
    [("OPENAI_API_KEY", credentials.api_key),
     ("OPENAI_BASE_URL", jsOrStr credentials.base_url "https://api.x.ai/v1")]
  | "moonshot" =>
    [("MOONSHOT_API_KEY", credentials.api_key)] ++
      (match credentials.base_url with
       | some b => if b ≠ "" then [("MOONSHOT_BASE_URL", b)] else []
       | none => [])
  | "openrouter" =>
    [("OPENAI_API_KEY", credentials.api_key),
     ("OPENAI_BASE_URL", jsOrStr credentials.base_url "https://openrouter.ai/api/v1")]
  | "minimax" =>
    [("OPENAI_API_KEY", credentials.api_key),
     ("OPENAI_BASE_URL", jsOrStr credentials.base_url "https://api.minimaxi.chat/v1")]
  | "cloudflare-ai-gateway" =>
    [("CLOUDFLARE_AI_GATEWAY_API_KEY", credentials.api_key)] ++
      (match credentials.base_url with
       | some b =>
         if b ≠ "" then
           match scanGatewayIds b.data with
           | some (accountId, gatewayId) =>
             [("CF_AI_GATEWAY_ACCOUNT_ID", accountId), ("CF_AI_GATEWAY_GATEWAY_ID", gatewayId)]
           | none => []
         else []
       | none => [])
  | _ => []

/-- First-match lookup in an environment-variable list (keys are distinct in
every list `buildCredentialEnvVars` produces). -/
def lookupEnv : List (String × String) → String → Option String
  | [], _ => none
  | (k, v) :: rest, key => if k = key then some v else lookupEnv rest key

/-- Counterexample to claim C8 as stated: a provided-but-empty `base_url`
(which survives credential validation, since `typeof "" === 'string'`) is
falsy in JavaScript, so `credentials.base_url || default` yields the fixed
default rather than the provided value verbatim. -/
theorem c8_counterexample :
    (validateApiCredentials (some (.obj [("provider", .str "xai"),
      ("api_key", .str "k"), ("base_url", .str "")]))) =
      some ⟨"xai", "k", some ""⟩ ∧
    lookupEnv (buildCredentialEnvVars ⟨"xai", "k", some ""⟩) "OPENAI_BASE_URL" =
      some "https://api.x.ai/v1" ∧
    some "https://api.x.ai/v1" ≠ some ("" : String) := by
  refine ⟨by decide, by decide, by decide⟩

/-- Claim C8 as amended: for `xai` credentials with non-empty api_key, the
environment sets `OPENAI_API_KEY` to the api_key, and `OPENAI_BASE_URL` to
the given base_url verbatim when a non-empty one is provided, and to the
fixed default `https://api.x.ai/v1` when the base_url is absent or empty. -/
theorem c8_xai_env_mapping (key : String) (_hkey : key ≠ "") :
    (∀ b : String,
      lookupEnv (buildCredentialEnvVars ⟨"xai", key, some b⟩) "OPENAI_API_KEY" = some key ∧
      (b ≠ "" →
        lookupEnv (buildCredentialEnvVars ⟨"xai", key, some b⟩) "OPENAI_BASE_URL" = some b) ∧
      (b = "" →
        lookupEnv (buildCredentialEnvVars ⟨"xai", key, some b⟩) "OPENAI_BASE_URL" =
          some "https://api.x.ai/v1")) ∧
    lookupEnv (buildCredentialEnvVars ⟨"xai", key, none⟩) "OPENAI_API_KEY" = some key ∧
    lookupEnv (buildCredentialEnvVars ⟨"xai", key, none⟩) "OPENAI_BASE_URL" =
      some "https://api.x.ai/v1" := by
  refine ⟨fun b => ⟨?_, fun hb => ?_, fun hb => ?_⟩, ?_, ?_⟩
  · simp [buildCredentialEnvVars, lookupEnv]
  · simp [buildCredentialEnvVars, lookupEnv, jsOrStr, hb]
  · simp [buildCredentialEnvVars, lookupEnv, jsOrStr, hb]
  · simp [buildCredentialEnvVars, lookupEnv]
  · simp [buildCredentialEnvVars, lookupEnv, jsOrStr]

/-- Witness for the amended C8 at concrete inputs. -/
theorem c8_xai_env_mapping_witness :
    (lookupEnv (buildCredentialEnvVars ⟨"xai", "k", some "https://proxy.example/v1"⟩)
        "OPENAI_API_KEY" = some "k" ∧
      ("https://proxy.example/v1" ≠ "" →
        lookupEnv (buildCredentialEnvVars ⟨"xai", "k", some "https://proxy.example/v1"⟩)
          "OPENAI_BASE_URL" = some "https://proxy.example/v1") ∧
      ("https://proxy.example/v1" = "" →
        lookupEnv (buildCredentialEnvVars ⟨"xai", "k", some "https://proxy.example/v1"⟩)
          "OPENAI_BASE_URL" = some "https://api.x.ai/v1")) ∧
    lookupEnv (buildCredentialEnvVars ⟨"xai", "k", none⟩) "OPENAI_API_KEY" = some "k" ∧
    lookupEnv (buildCredentialEnvVars ⟨"xai", "k", none⟩) "OPENAI_BASE_URL" =
      some "https://api.x.ai/v1" := by
  exact ⟨(c8_xai_env_mapping "k" (by decide)).1 "https://proxy.example/v1",
    (c8_xai_env_mapping "k" (by decide)).2.1,
    (c8_xai_env_mapping "k" (by decide)).2.2⟩

/-- Claim C9: malformed `api_credentials` (not an object / falsy, provider
outside the seven recognized kinds or not a string, api_key empty or not a
string) validate to absent credentials while the request as a whole still
validates successfully; well-shaped credentials are preserved field by
field. -/
theorem c9_credential_validation :
    (∀ (v : JsonValue) (agentId taskId subject desc soul : String),
      getField v "agent_id" = some (.str agentId) → agentId ≠ "" →
      getField v "task_id" = some (.str taskId) → taskId ≠ "" →
      getField v "task_subject" = some (.str subject) → subject ≠ "" →
      getField v "task_description" = some (.str desc) →
      getField v "soul_content" = some (.str soul) → soul ≠ "" →
      jsTruthy v = true → typeofObject v = true →
      (validateMissionRequest (some v)).isOk = true) ∧
    (∀ (v : JsonValue) (r : MissionExecuteRequest),
      validateMissionRequest (some v) = Except.ok r →
      r.api_credentials = validateApiCredentials (getField v "api_credentials")) ∧
    validateApiCredentials none = none ∧
    (∀ c : JsonValue, jsTruthy c = false → validateApiCredentials (some c) = none) ∧
    (∀ c : JsonValue, typeofObject c = false → validateApiCredentials (some c) = none) ∧
    (∀ (c : JsonValue) (p : String),
      getField c "provider" = some (.str p) → validProviders.contains p = false →
      validateApiCredentials (some c) = none) ∧
    (∀ c : JsonValue,
      (∀ s : String, getField c "provider" ≠ some (.str s)) →
      validateApiCredentials (some c) = none) ∧
    (∀ (c : JsonValue) (k : String),
      getField c "api_key" = some (.str k) → k = "" →
      validateApiCredentials (some c) = none) ∧
    (∀ c : JsonValue,
      (∀ s : String, getField c "api_key" ≠ some (.str s)) →
      validateApiCredentials (some c) = none) ∧
    (∀ (c : JsonValue) (p k : String),
      getField c "provider" = some (.str p) → validProviders.contains p = true →
      getField c "api_key" = some (.str k) → k ≠ "" →
      jsTruthy c = true → typeofObject c = true →
      validateApiCredentials (some c) = some ⟨p, k, strFieldOpt c "base_url"⟩) := by
  refine ⟨?_, ?_, rfl, ?_, ?_, ?_, ?_, ?_, ?_, ?_⟩
  · intro v a t s d so h1 h2 h3 h4 h5 h6 h7 h8 h9 ht hto
    simp [validateMissionRequest, h1, h2, h3, h4, h5, h6, h7, h8, h9, ht, hto]
    rfl
  · intro v r h
    exact (validateMissionRequest_ok_inv v r h).1
  · intro c h
    simp [validateApiCredentials, h]
  · intro c h
    simp [validateApiCredentials, h]
  · intro c p hp hmem
    have hmem2 : ¬ p ∈ validProviders := by simpa using hmem
    simp [validateApiCredentials.eq_def, hp, hmem2, ite_self]
  · intro c hp
    simp only [validateApiCredentials.eq_def, ite_self]
  · intro c k hk hke
    subst hke
    rcases hgp : getField c "provider" with _ | jv
    · simp [validateApiCredentials.eq_def, hgp, ite_self]
    · cases jv <;> simp [validateApiCredentials.eq_def, hgp, hk, ite_self]
  · intro c hk
    rcases hgp : getField c "provider" with _ | jv
    · simp [validateApiCredentials.eq_def, hgp, ite_self]
    · cases jv <;> simp [validateApiCredentials.eq_def, hgp, ite_self]
  · intro c p k hp hmem hk hkne ht hto
    simp only [validateApiCredentials.eq_def, hp, hk, ht, hto, hmem]
    simp [hkne]

/-- A concrete request body whose `api_credentials` field is a number (not
an object). -/
def jsonReqC9 : JsonValue := .obj [
  ("agent_id", .str "a"), ("task_id", .str "t"), ("task_subject", .str "s"),
  ("task_description", .str "d"), ("soul_content", .str "so"),
  ("api_credentials", .num 5)]

/-- The validated request built from `jsonReqC9`: credentials dropped. -/
def reqC9 : MissionExecuteRequest := {
  agent_id := "a", task_id := "t", task_subject := "s",
  task_description := "d", soul_content := "so",
  model_override := none, team_context := none, methodology_context := none,
  agent_memory := none, project_memory := none, project_communications := none,
  project_document_index := none, api_credentials := none, max_iterations := none }

/-- Credentials with an unrecognized provider. -/
def credsBadProvider : JsonValue := .obj [("provider", .str "grok"), ("api_key", .str "k")]

/-- Credentials whose provider is not a string. -/
def credsNonStrProvider : JsonValue := .obj [("provider", .num 1), ("api_key", .str "k")]

/-- Credentials with an empty api_key. -/
def credsEmptyKey : JsonValue := .obj [("provider", .str "xai"), ("api_key", .str "")]

/-- Credentials whose api_key is not a string. -/
def credsNonStrKey : JsonValue := .obj [("provider", .str "xai"), ("api_key", .num 2)]

/-- Well-shaped credentials. -/
def credsGood : JsonValue := .obj [
  ("provider", .str "xai"), ("api_key", .str "k"), ("base_url", .str "https://b")]

/-- Witness for C9 at concrete inputs: a request with numeric
`api_credentials` still validates (credentials dropped); each malformed
credentials shape validates to `none`; well-shaped credentials are
preserved. -/
theorem c9_credential_validation_witness :
    (validateMissionRequest (some jsonReqC9)).isOk = true ∧
    reqC9.api_credentials = validateApiCredentials (getField jsonReqC9 "api_credentials") ∧
    validateApiCredentials (some (.str "")) = none ∧
    validateApiCredentials (some (.num 7)) = none ∧
    validateApiCredentials (some credsBadProvider) = none ∧
    validateApiCredentials (some credsNonStrProvider) = none ∧
    validateApiCredentials (some credsEmptyKey) = none ∧
    validateApiCredentials (some credsNonStrKey) = none ∧
    validateApiCredentials (some credsGood) = some ⟨"xai", "k", some "https://b"⟩ := by
  obtain ⟨p1, p2, -, p4, p5, p6, p7, p8, p9, p10⟩ := c9_credential_validation
  exact ⟨p1 jsonReqC9 "a" "t" "s" "d" "so" rfl (by decide) rfl (by decide) rfl (by decide)
      rfl rfl (by decide) rfl rfl,
    p2 jsonReqC9 reqC9 rfl,
    p4 (.str "") rfl,
    p5 (.num 7) rfl,
    p6 credsBadProvider "grok" rfl (by decide),
    p7 credsNonStrProvider (by intro s h; simp [credsNonStrProvider, getField, lookupField] at h),
    p8 credsEmptyKey "" rfl rfl,
    p9 credsNonStrKey (by intro s h; simp [credsNonStrKey, getField, lookupField] at h),
    p10 credsGood "xai" "k" rfl (by decide) rfl (by decide) rfl rfl⟩

/-- `buildFollowUpTurnPrompt` — build a follow-up turn prompt with
abbreviated context: agent heading, the previous turn's output (truncated to
the last 8000 characters with a truncation-notice prefix when longer),
a task reminder, and refinement instructions (with a final-turn note when
this is the last turn), joined by horizontal rules. -/
def buildFollowUpTurnPrompt (request : MissionExecuteRequest) (turn : Nat)
    (previousOutput : String) (isFinalTurn : Bool) : String :=
  let s1 := "# Agent: " ++ request.agent_id ++ " (Turn " ++ toString turn ++ ")"
  let maxPreviousLength := 8000
  let truncatedOutput :=
    if previousOutput.length > maxPreviousLength then
      "...(truncated)...\n" ++ sliceLast previousOutput maxPreviousLength
    else previousOutput
  let s2 := "# Previous Turn Output\n\n" ++ truncatedOutput
  let s3 := "# Task Reminder\n\n**Task ID:** " ++ request.task_id ++
    "\n**Subject:** " ++ request.task_subject
  let finalTurnNote :=
    if isFinalTurn then "\n\n**This is your final turn.** Provide your best output now."
    else ""
  let s4 := "# Instructions\n\nReview your previous output above. Look for:\n- Errors, incomplete sections, or missing details\n- Improvements to make the output more complete and correct\n- Any issues flagged in the previous output\n\nRefine your work and provide the improved, complete output.\n\n**When you are done**, end your response with `[TASK_COMPLETE]`.\n**If you still need another pass**, end with `[NEEDS_REFINEMENT]`." ++ finalTurnNote
  String.intercalate "\n\n---\n\n" [s1, s2, s3, s4]

/-- Spec-side companion for C7 (from the spec's words): the follow-up prompt
with a given text embedded as the previous-output section, no truncation of
its own. -/
def followUpPromptEmbedding (request : MissionExecuteRequest) (turn : Nat)
    (embedded : String) (isFinalTurn : Bool) : String :=
  let s1 := "# Agent: " ++ request.agent_id ++ " (Turn " ++ toString turn ++ ")"
  let s2 := "# Previous Turn Output\n\n" ++ embedded
  let s3 := "# Task Reminder\n\n**Task ID:** " ++ request.task_id ++
    "\n**Subject:** " ++ request.task_subject
  let finalTurnNote :=
    if isFinalTurn then "\n\n**This is your final turn.** Provide your best output now."
    else ""
  let s4 := "# Instructions\n\nReview your previous output above. Look for:\n- Errors, incomplete sections, or missing details\n- Improvements to make the output more complete and correct\n- Any issues flagged in the previous output\n\nRefine your work and provide the improved, complete output.\n\n**When you are done**, end your response with `[TASK_COMPLETE]`.\n**If you still need another pass**, end with `[NEEDS_REFINEMENT]`." ++ finalTurnNote
  String.intercalate "\n\n---\n\n" [s1, s2, s3, s4]

/-- Claim C7: a previous output of length at most 8000 (including exactly
8000) is embedded unchanged in the follow-up prompt with no notice; a longer
one is embedded as the truncation-notice line followed by exactly its last
8000 characters. -/
theorem c7_followup_truncation :
    (∀ (r : MissionExecuteRequest) (turn : Nat) (p : String) (f : Bool),
      p.length ≤ 8000 →
      buildFollowUpTurnPrompt r turn p f = followUpPromptEmbedding r turn p f) ∧
    (∀ (r : MissionExecuteRequest) (turn : Nat) (p : String) (f : Bool),
      8000 < p.length →
      buildFollowUpTurnPrompt r turn p f =
        followUpPromptEmbedding r turn ("...(truncated)...\n" ++ sliceLast p 8000) f ∧
      (sliceLast p 8000).length = 8000 ∧
      ∃ pre : String, pre ++ sliceLast p 8000 = p) := by
  constructor
  · intro r turn p f hle
    simp only [buildFollowUpTurnPrompt, followUpPromptEmbedding]
    rw [if_neg (by omega)]
  · intro r turn p f hgt
    refine ⟨?_, ?_, ?_⟩
    · simp only [buildFollowUpTurnPrompt, followUpPromptEmbedding]
      rw [if_pos hgt]
    · have hlen : p.length = p.data.length := rfl
      show (String.mk (p.data.drop (p.data.length - 8000))).length = 8000
      show (p.data.drop (p.data.length - 8000)).length = 8000
      rw [List.length_drop]
      omega
    · refine ⟨⟨p.data.take (p.data.length - 8000)⟩, ?_⟩
      show String.mk (p.data.take (p.data.length - 8000) ++ p.data.drop (p.data.length - 8000)) = p
      rw [List.take_append_drop]

/-- A concrete 8001-character string. -/
def longPrev : String := ⟨List.replicate 8001 'x'⟩

/-- Witness for C7 at concrete inputs: a 4-character previous output is
embedded unchanged; an 8001-character one is embedded as the notice plus its
last 8000 characters. -/
theorem c7_followup_truncation_witness :
    buildFollowUpTurnPrompt reqC6 2 "prev" false = followUpPromptEmbedding reqC6 2 "prev" false ∧
    (buildFollowUpTurnPrompt reqC6 3 longPrev true =
        followUpPromptEmbedding reqC6 3 ("...(truncated)...\n" ++ sliceLast longPrev 8000) true ∧
      (sliceLast longPrev 8000).length = 8000 ∧
      ∃ pre : String, pre ++ sliceLast longPrev 8000 = longPrev) := by
  refine ⟨c7_followup_truncation.1 reqC6 2 "prev" false (by decide),
    c7_followup_truncation.2 reqC6 3 longPrev true ?_⟩
  show 8000 < (List.replicate 8001 'x').length
  rw [List.length_replicate]
  omega

/-- The single-quote character. -/
def squote : Char := Char.ofNat 39

/-- The backslash character. -/
def bslash : Char := Char.ofNat 92

/-- The space character. -/
def sspace : Char := Char.ofNat 32

@[simp] lemma squote_ne_sspace : squote ≠ sspace := by decide

@[simp] lemma squote_ne_bslash : squote ≠ bslash := by decide

@[simp] lemma bslash_ne_sspace : bslash ≠ sspace := by decide

@[simp] lemma bslash_ne_squote : bslash ≠ squote := by decide

/-- `prompt.replace(/'/g, "'\\''")` on characters: every single quote becomes
quote, backslash, quote, quote. -/
def escapeSingleQuotes : List Char → List Char
  | [] => []
  | c :: rest =>
    (if c = squote then [squote, bslash, squote, squote] else [c]) ++ escapeSingleQuotes rest

/-- The escaped prompt of `executeMissionTask` (source line 245). -/
def escapeShellArg (s : String) : String :=
  ⟨escapeSingleQuotes s.data⟩

/-- A one-character string holding a single quote. -/
def quoteS : String := ⟨[squote]⟩

/-- The worker command construction of `executeMissionTask` (source lines
248–252): the base invocation, a `--model '<override>'` segment interpolated
verbatim when a truthy override is present, and the single-quote-escaped
prompt wrapped in single quotes. -/
def buildTurnCommand (modelOverride : Option String) (prompt : String) : String :=
  let base := "openclaw chat --once --url ws://localhost:18789"
  let withModel :=
    match modelOverride with
    | some mo => if mo ≠ "" then base ++ " --model " ++ quoteS ++ mo ++ quoteS else base
    | none => base
  withModel ++ " " ++ quoteS ++ escapeShellArg prompt ++ quoteS

/-- Emit the current word, if one was started. -/
def flushTok : Option (List Char) → List (List Char)
  | none => []
  | some w => [w]

/-- A POSIX-style tokenizer for a command string restricted to the features
the command uses: space-separated words, single-quoted segments (no escapes
inside), and backslash escapes outside quotes.  `none` means the string is
malformed as a command (unterminated quote or trailing escape). -/
def tokenizeShell (inQ esc : Bool) (cur : Option (List Char)) : List Char → Option (List (List Char))
  | [] => if esc then none else if inQ then none else some (flushTok cur)
  | c :: rest =>
    if esc then tokenizeShell false false (some (cur.getD [] ++ [c])) rest
    else if inQ then
      if c = squote then tokenizeShell false false (some (cur.getD [])) rest
      else tokenizeShell true false (some (cur.getD [] ++ [c])) rest
    else if c = sspace then
      Option.map (fun ts => flushTok cur ++ ts) (tokenizeShell false false none rest)
    else if c = squote then tokenizeShell true false (some (cur.getD [])) rest
    else if c = bslash then tokenizeShell false true cur rest
    else tokenizeShell false false (some (cur.getD [] ++ [c])) rest

/-- Round trip of the prompt escape: from inside a quoted region, the escaped
text followed by the closing quote tokenizes back to the original text
appended to the current word. -/
lemma tokenizeShell_escaped (p : List Char) :
    ∀ cur : List Char,
      tokenizeShell true false (some cur) (escapeSingleQuotes p ++ [squote]) =
        some [cur ++ p] := by
  induction p with
  | nil =>
    intro cur
    simp [escapeSingleQuotes, tokenizeShell, flushTok]
  | cons c rest ih =>
    intro cur
    by_cases hc : c = squote
    · subst hc
      have hsh : escapeSingleQuotes (squote :: rest) ++ [squote] =
          squote :: bslash :: squote :: squote :: (escapeSingleQuotes rest ++ [squote]) := by
        simp [escapeSingleQuotes]
      rw [hsh]
      simp [tokenizeShell, ih, List.append_assoc]
    · have hsh : escapeSingleQuotes (c :: rest) ++ [squote] =
          c :: (escapeSingleQuotes rest ++ [squote]) := by
        simp [escapeSingleQuotes, hc]
      rw [hsh]
      simp [tokenizeShell, hc, ih, List.append_assoc]

/-- A model override containing a single quote. -/
def badOverride : String := ⟨['a'] ++ [squote] ++ ['b']⟩

/-- Claim C10: the single-quote escape is applied to the prompt only, and its
escape-then-shell-unescape round trip recovers the original prompt for every
prompt; the model override is interpolated verbatim between single quotes, so
an override containing a single quote makes the whole command's quoting
malformed (the tokenizer rejects it). -/
theorem c10_shell_escaping :
    (∀ p : List Char,
      tokenizeShell false false none (squote :: (escapeSingleQuotes p ++ [squote])) =
        some [p]) ∧
    (∀ prompt : String,
      buildTurnCommand (some badOverride) prompt =
        "openclaw chat --once --url ws://localhost:18789" ++ " --model " ++ quoteS ++
          badOverride ++ quoteS ++ " " ++ quoteS ++ escapeShellArg prompt ++ quoteS) ∧
    squote ∈ badOverride.data ∧
    tokenizeShell false false none (buildTurnCommand (some badOverride) "p").data = none := by
  refine ⟨?_, ?_, by decide, by decide⟩
  · intro p
    have h0 : tokenizeShell false false none (squote :: (escapeSingleQuotes p ++ [squote])) =
        tokenizeShell true false (some []) (escapeSingleQuotes p ++ [squote]) := by
      simp [tokenizeShell]
    rw [h0, tokenizeShell_escaped p []]
    simp
  · intro prompt
    rfl
